import Mathlib

/-!
Verification of the natural-language specification of `ai_feedback_api`
against its single source file `src/Feedback_api.js`.

The JavaScript code is shallowly embedded: strings are `String` / `List Char`,
JS numbers carried by skill ratings are `ℚ`, the one outbound HTTP call is a
parameter `upstream : String → Option String` (`some text` models a successful
completion whose first choice has message content `text`; `none` models a
non-success status or a thrown error).  All functions are total and
executable.
-/

/-- Whitespace test used by the embedding of JavaScript `String.prototype.trim`
(space, tab, newline, carriage return, vertical tab, form feed; the Unicode
space characters that JS additionally trims play no role for the texts
considered here). -/
def wsChar (c : Char) : Bool :=
  c == ' ' || c == '\t' || c == '\n' || c == '\r' || c == '\x0b' || c == '\x0c'

/-- Embedding of JS `line.trim()` on character lists. -/
def trimL (l : List Char) : List Char :=
  ((l.dropWhile wsChar).reverse.dropWhile wsChar).reverse

/-- Embedding of JS `line.toUpperCase()` (ASCII letters, as `Char.toUpper`). -/
def upperL (l : List Char) : List Char := l.map Char.toUpper

/-- Does `p` match at the head of the second list?  (`leadMatch p s = true` iff
`p` is an initial segment of `s`.) -/
def leadMatch : List Char → List Char → Bool
  | [], _ => true
  | _ :: _, [] => false
  | p :: ps, c :: cs => p == c && leadMatch ps cs

/-- Embedding of JS `s.includes(pat)`: does `pat` occur contiguously in the
second list? -/
def containsSub (pat : List Char) : List Char → Bool
  | [] => pat.isEmpty
  | c :: rest => leadMatch pat (c :: rest) || containsSub pat rest

/-- Does the list end with `q`? -/
def sufMatch (q l : List Char) : Bool := leadMatch q.reverse l.reverse

/-- Embedding of JS `line.replace(/pat/i, '')` for a literal pattern `pat`
given in upper case: remove the first case-insensitive occurrence of `pat`,
and return the list unchanged when there is none. -/
def removeFirstCI (pat : List Char) : List Char → List Char
  | [] => []
  | c :: rest =>
    if leadMatch pat (upperL (c :: rest)) then List.drop pat.length (c :: rest)
    else c :: removeFirstCI pat rest

/-- Embedding of JS `s.split(sep)` for a one-character separator
(`Feedback_api.js` line 43 splits on `'\n'`). -/
def splitChar (sep : Char) : List Char → List (List Char)
  | [] => [[]]
  | c :: rest =>
    match splitChar sep rest with
    | [] => [[c]]
    | r :: rs => if c == sep then [] :: r :: rs else (c :: r) :: rs

/-- Joining a list of lines with a separator character; inverse of `splitChar`
on newline-free lines.  Used to build multi-line parser inputs in theorem
statements. -/
def joinChar (sep : Char) : List (List Char) → List Char
  | [] => []
  | [x] => x
  | x :: y :: rest => x ++ sep :: joinChar sep (y :: rest)

/-- Build a multi-line string out of the given lines, separated by `'\n'`. -/
def joinLines (ls : List String) : String :=
  (joinChar '\n' (ls.map String.data)).asString

/-- Label `TOP_STRENGTHS:` (`Feedback_api.js` lines 50-51). -/
def lTS1 : List Char := "TOP_STRENGTHS:".data

/-- Label `TOP STRENGTHS:` (`Feedback_api.js` lines 50-51). -/
def lTS2 : List Char := "TOP STRENGTHS:".data

/-- Label `PRACTICAL_EXPERIENCE:` (`Feedback_api.js` lines 52-53). -/
def lPE1 : List Char := "PRACTICAL_EXPERIENCE:".data

/-- Label `PRACTICAL EXPERIENCE:` (`Feedback_api.js` lines 52-53). -/
def lPE2 : List Char := "PRACTICAL EXPERIENCE:".data

/-- Label `DOMAIN_KNOWLEDGE:` (`Feedback_api.js` lines 54-55). -/
def lDK1 : List Char := "DOMAIN_KNOWLEDGE:".data

/-- Label `DOMAIN KNOWLEDGE:` (`Feedback_api.js` lines 54-55). -/
def lDK2 : List Char := "DOMAIN KNOWLEDGE:".data

/-- Canned default for `topStrengths` (`Feedback_api.js` lines 66, 73). -/
def defaultTop : String := "Strong technical skills identified from assessment."

/-- Canned default for `practicalExperience` (`Feedback_api.js` lines 67, 74). -/
def defaultPrac : String := "Hands-on experience demonstrated through skill ratings."

/-- Canned default for `domainKnowledge` (`Feedback_api.js` lines 68, 75). -/
def defaultDom : String := "Domain expertise with areas for continued development."

/-- Embedding of the JS `x || d` idiom on strings (empty string is falsy),
as used in the return object on lines 72-76. -/
def orDefault (x d : List Char) : List Char := if x = [] then d else x

/-- Result of `parseFeedbackResponse` (the object built on lines 72-76 of
`Feedback_api.js`). -/
structure FeedbackResult where
  topStrengths : String
  practicalExperience : String
  domainKnowledge : String
deriving DecidableEq, Repr

/-- One iteration of the line-scanning loop (`Feedback_api.js` lines 49-57):
the accumulator is the triple
`(topStrengths, practicalExperience, domainKnowledge)`. -/
def lineUpd (acc : List Char × List Char × List Char) (line : List Char) :
    List Char × List Char × List Char :=
  let up := upperL line
  if containsSub lTS1 up || containsSub lTS2 up then
    (trimL (removeFirstCI lTS2 (removeFirstCI lTS1 line)), acc.2.1, acc.2.2)
  else if containsSub lPE1 up || containsSub lPE2 up then
    (acc.1, trimL (removeFirstCI lPE2 (removeFirstCI lPE1 line)), acc.2.2)
  else if containsSub lDK1 up || containsSub lDK2 up then
    (acc.1, acc.2.1, trimL (removeFirstCI lDK2 (removeFirstCI lDK1 line)))
  else acc

/-- The whole line-scanning loop over the non-blank lines. -/
def scanLines (ls : List (List Char)) (acc : List Char × List Char × List Char) :
    List Char × List Char × List Char :=
  ls.foldl lineUpd acc

/-- Length of the leading digit run (`\d+` anchored at the current
position). -/
def digitRun : List Char → Nat
  | [] => 0
  | c :: rest => if c.isDigit then digitRun rest + 1 else 0

/-- Length of the match, if any, of the split regex
`/\d+\.|TOP|PRACTICAL|DOMAIN/i` (`Feedback_api.js` line 60) anchored at the
head of `s`.  Since `'.'` is not a digit, the greedy `\d+\.` alternative
matches exactly when the full leading digit run is followed by `'.'`. -/
def firstMatchLen (s : List Char) : Option Nat :=
  let d := digitRun s
  if 0 < d ∧ s.get? d = some '.' then some (d + 1)
  else if leadMatch "TOP".data (upperL s) then some 3
  else if leadMatch "PRACTICAL".data (upperL s) then some 9
  else if leadMatch "DOMAIN".data (upperL s) then some 6
  else none

/-- Fuel-indexed worker for `splitRe`: the fuel only serves to make the
recursion structural (and hence kernel-evaluable); it strictly dominates the
list length at every call. -/
def splitReFuel : Nat → List Char → List (List Char)
  | 0, _ => [[]]
  | _ + 1, [] => [[]]
  | fuel + 1, c :: rest =>
    match firstMatchLen (c :: rest) with
    | some n => [] :: splitReFuel fuel (List.drop (n - 1) rest)
    | none =>
      match splitReFuel fuel rest with
      | [] => [[c]]
      | r :: rs => (c :: r) :: rs

/-- Embedding of `feedbackText.split(/\d+\.|TOP|PRACTICAL|DOMAIN/i)`
(`Feedback_api.js` line 60): scan left to right, cut at each leftmost match of
the regex. -/
def splitRe (l : List Char) : List (List Char) := splitReFuel (l.length + 1) l

/-- The fallback branch of the parser (`Feedback_api.js` lines 59-70): split
the whole text on the regex, drop fragments that are blank after trimming,
and either take the first three (trimmed) or fall back to the three canned
sentences. -/
def feedbackFallback (s : List Char) : List Char × List Char × List Char :=
  match (splitRe s).filter (fun sec => !(trimL sec).isEmpty) with
  | s0 :: s1 :: s2 :: _ => (trimL s0, trimL s1, trimL s2)
  | _ => (defaultTop.data, defaultPrac.data, defaultDom.data)

/-- Embedding of `parseFeedbackResponse` (`Feedback_api.js` lines 42-77). -/
def parseFeedbackResponse (s : String) : FeedbackResult :=
  let lines := (splitChar '\n' s.data).filter (fun l => !(trimL l).isEmpty)
  let scanned := scanLines lines ([], [], [])
  let resolved :=
    if scanned.1 = [] ∧ scanned.2.1 = [] ∧ scanned.2.2 = [] then feedbackFallback s.data
    else scanned
  { topStrengths := (orDefault resolved.1 defaultTop.data).asString
    practicalExperience := (orDefault resolved.2.1 defaultPrac.data).asString
    domainKnowledge := (orDefault resolved.2.2 defaultDom.data).asString }

/-- A skill as carried by a request: a name and a numeric self-rating
(JS numbers are modelled by `ℚ`; the `typeof` guards of the validator are
vacuous under this typed embedding). -/
structure Skill where
  name : String
  rating : ℚ
deriving DecidableEq, Repr

/-- Result of `validateInput` (`Feedback_api.js` lines 20-40): the code
returns `{isValid:false, message}` or `{isValid:true}` (no message). -/
structure ValidationResult where
  isValid : Bool
  message : Option String
deriving DecidableEq, Repr

/-- The per-skill loop of `validateInput` (`Feedback_api.js` lines 29-37):
name check first, then rating check, short-circuiting on the first failing
skill.  JS `!skill.name` is falsity of the name string (empty string);
`!skill.rating` is falsity of the number (zero). -/
def checkSkills : List Skill → ValidationResult
  | [] => ⟨true, none⟩
  | sk :: rest =>
    if sk.name = "" then ⟨false, some "Each skill must have a valid name."⟩
    else if sk.rating = 0 ∨ sk.rating < 1 ∨ 5 < sk.rating then
      ⟨false, some "Each skill must have a rating between 1 and 5."⟩
    else checkSkills rest

/-- Embedding of `validateInput` (`Feedback_api.js` lines 20-40).  An absent
or non-array `skills` and a non-string comment are outside this typed
embedding; `!overallComment` (empty string) is subsumed by the trim check. -/
def validateInput (skills : List Skill) (overallComment : String) : ValidationResult :=
  if skills.length = 0 then
    ⟨false, some "Invalid input. Please provide an array of skills."⟩
  else if trimL overallComment.data = [] then
    ⟨false, some "Please provide an overall comment about your skills."⟩
  else checkSkills skills

/-- Rendering of a JS number into a template string.  Integers print exactly
as in JS; for the (unused in any claim) non-integral case the rational is
printed in fraction form, a deliberate simplification of JS float
formatting. -/
def jsNumToStr (q : ℚ) : String :=
  if q.den = 1 then toString q.num else toString q

/-- Embedding of `Number.prototype.toFixed(1)` for the non-negative averages
this program produces: one decimal digit, rounding to nearest. -/
def toFixed1 (q : ℚ) : String :=
  let n : ℤ := ⌊q * 10 + 1 / 2⌋
  toString (n / 10) ++ "." ++ toString (n % 10)

/-- One rendered skill line (`Feedback_api.js` lines 87-89):
`` `${index + 1}. ${skill.name} - Rating: ${skill.rating}/5` ``. -/
def jsSkillLine (index : Nat) (sk : Skill) : String :=
  toString (index + 1) ++ ". " ++ sk.name ++ " - Rating: " ++ jsNumToStr sk.rating ++ "/5"

/-- Embedding of the prompt construction (`Feedback_api.js` lines 87-119):
skill lines joined by newlines, the average rating via `toFixed(1)`, the two
counts, and the fixed instructional template. -/
def buildPrompt (skills : List Skill) (overallComment : String) : String :=
  let skillsText := String.intercalate "\n" (skills.enum.map (fun p => jsSkillLine p.1 p.2))
  let averageRating := toFixed1 ((skills.map Skill.rating).sum / (skills.length : ℚ))
  let highRatedSkills := (skills.filter (fun sk => decide (4 ≤ sk.rating))).length
  let lowRatedSkills := (skills.filter (fun sk => decide (sk.rating ≤ 2))).length
  "\n    You are an expert career coach and skills development specialist. Analyze the following skills self-assessment and provide feedback in EXACTLY these 3 categories only.\n\n    SKILLS ASSESSMENT:\n    "
    ++ skillsText
    ++ "\n\n    OVERALL SELF-ASSESSMENT COMMENT:\n    \""
    ++ overallComment
    ++ "\"\n\n    STATISTICAL OVERVIEW:\n    - Total Skills Assessed: "
    ++ toString skills.length
    ++ "\n    - Average Rating: "
    ++ averageRating
    ++ "/5\n    - High Performing Skills (4-5): "
    ++ toString highRatedSkills
    ++ "\n    - Skills Needing Development (1-2): "
    ++ toString lowRatedSkills
    ++ "\n\n    REQUIREMENTS:\n    Provide feedback in EXACTLY these 3 categories only:\n\n    1. Top Strengths: Identify the candidate\x27s highest-rated skills and strongest capabilities based on ratings of 4-5. Focus on what they excel at.\n\n    2. Practical Experience: Assess their hands-on experience and real-world application of their skills based on their ratings and overall comment. Focus on verified experience and practical application.\n\n    3. Domain Knowledge: Evaluate their theoretical understanding, industry knowledge, and areas for development based on lower-rated skills and overall assessment. Include both existing domain expertise and development areas.\n\n    Return ONLY these 3 sections with concise, professional feedback for each. Keep each section to 3-4 sentences maximum.DON\x27T INCLUDE THE NUMBERS IN BETWEEN THE RESPONSE LIKE 5/5 RATED. Do not include any formatting like ** or headers, just the plain text for each section. "

/-- The JSON value returned by `SkillsFeedback`: the `feedback` object is kept
as an ordered key-value list so that the JSON field names the code actually
emits are part of the model. -/
structure ApiResponse where
  success : Bool
  feedback : Option (List (String × String))
  error : Option String
deriving DecidableEq, Repr

/-- Fallback sentence used on the upstream-error path
(`Feedback_api.js` lines 169-171). -/
def unableMsg : String := "Unable to generate feedback at this time."

/-- Embedding of `SkillsFeedback` (`Feedback_api.js` lines 19-175).  The
single outbound completion call is abstracted by
`upstream : String → Option String`, applied to the built prompt: `some text`
is a successful call whose first choice has message content `text`; `none` is
a non-ok HTTP status or a throw, both of which land in the `catch` block. -/
def SkillsFeedback (skills : List Skill) (overallComment : String)
    (upstream : String → Option String) : ApiResponse :=
  let validation := validateInput skills overallComment
  if validation.isValid = false then
    { success := false, feedback := none, error := validation.message }
  else
    match upstream (buildPrompt skills overallComment) with
    | none =>
      { success := false,
        feedback := some [("Top_strength", unableMsg),
                          ("practical_Experience", unableMsg),
                          ("DOmain_Knowledge", unableMsg)],
        error := some "Failed to generate feedback" }
    | some feedbackText =>
      let parsed := parseFeedbackResponse feedbackText
      { success := true,
        feedback := some [("Top_strength", parsed.topStrengths),
                          ("practical_Experience", parsed.practicalExperience),
                          ("DOmain_Knowledge", parsed.domainKnowledge)],
        error := none }

/-- Validity of a request in the words of the specification (section 4.1):
non-empty skills list, comment non-empty after trimming, every skill with a
non-empty name and a rating in the closed range from 1 to 5. -/
def specValidInput (skills : List Skill) (comment : String) : Prop :=
  skills ≠ [] ∧ trimL comment.data ≠ [] ∧
    ∀ sk ∈ skills, sk.name ≠ "" ∧ 1 ≤ sk.rating ∧ sk.rating ≤ 5

instance (skills : List Skill) (comment : String) :
    Decidable (specValidInput skills comment) := by
  unfold specValidInput
  infer_instance

/-- A labelled `topStrengths` line as produced by a well-behaved model
reply. -/
def lineTop (v : String) : String := "TOP_STRENGTHS: " ++ v

/-- A labelled `practicalExperience` line. -/
def linePrac (v : String) : String := "PRACTICAL EXPERIENCE: " ++ v

/-- A labelled `domainKnowledge` line. -/
def lineDom (v : String) : String := "DOMAIN_KNOWLEDGE: " ++ v

/-- The string contains none of the six recognized labels, case-insensitively. -/
def noLabels (v : String) : Prop :=
  containsSub lTS1 (upperL v.data) = false ∧ containsSub lTS2 (upperL v.data) = false ∧
  containsSub lPE1 (upperL v.data) = false ∧ containsSub lPE2 (upperL v.data) = false ∧
  containsSub lDK1 (upperL v.data) = false ∧ containsSub lDK2 (upperL v.data) = false

instance (v : String) : Decidable (noLabels v) := by
  unfold noLabels
  infer_instance

/-- A well-behaved section text: non-empty, already trimmed, single-line, and
free of the six labels. -/
def goodVal (v : String) : Prop :=
  v ≠ "" ∧ trimL v.data = v.data ∧ '\n' ∉ v.data ∧ noLabels v

instance (v : String) : Decidable (goodVal v) := by
  unfold goodVal
  infer_instance

theorem orDefault_ne_nil (x d : List Char) (h : d ≠ []) : orDefault x d ≠ [] := by
  unfold orDefault
  split <;> simp_all

theorem asString_ne_empty (l : List Char) (h : l ≠ []) : l.asString ≠ "" := by
  intro hc
  apply h
  have : (l.asString).data = ("" : String).data := by rw [hc]
  simpa [List.asString] using this

theorem asString_data (A : String) : A.data.asString = A := rfl

theorem String_ne_empty_data {A : String} (h : A ≠ "") : A.data ≠ [] := by
  intro hd
  exact h (String.ext hd)

theorem notBlank_iff (l : List Char) : (!(trimL l).isEmpty) = true ↔ trimL l ≠ [] := by
  cases h : trimL l <;> simp [h]

theorem upperL_append (x y : List Char) : upperL (x ++ y) = upperL x ++ upperL y :=
  List.map_append _ _ _

theorem leadMatch_append_left (p u y : List Char) (h : leadMatch p u = true) :
    leadMatch p (u ++ y) = true := by
  induction p generalizing u with
  | nil => rfl
  | cons a ps ih =>
    cases u with
    | nil => exact absurd h (by simp [leadMatch])
    | cons b us =>
      rw [List.cons_append]
      simp only [leadMatch, Bool.and_eq_true] at h ⊢
      exact ⟨h.1, ih us h.2⟩

theorem leadMatch_refl (l : List Char) : leadMatch l l = true := by
  induction l with
  | nil => rfl
  | cons a l ih => simp [leadMatch, ih]

theorem leadMatch_self_append (p r : List Char) : leadMatch p (p ++ r) = true :=
  leadMatch_append_left p p r (leadMatch_refl p)

theorem leadMatch_of_le (p u y : List Char) (h : leadMatch p (u ++ y) = true)
    (hle : p.length ≤ u.length) : leadMatch p u = true := by
  induction p generalizing u with
  | nil => rfl
  | cons a ps ih =>
    cases u with
    | nil => simp at hle
    | cons b us =>
      rw [List.cons_append] at h
      simp only [leadMatch, Bool.and_eq_true] at h ⊢
      exact ⟨h.1, ih us h.2 (by simpa using hle)⟩

theorem leadMatch_take_eq (p u y : List Char) (h : leadMatch p (u ++ y) = true)
    (hle : u.length ≤ p.length) : List.take u.length p = u := by
  induction u generalizing p with
  | nil => rfl
  | cons b us ih =>
    cases p with
    | nil => simp at hle
    | cons a ps =>
      rw [List.cons_append] at h
      simp only [leadMatch, Bool.and_eq_true, beq_iff_eq] at h
      simp only [List.length_cons, List.take_succ_cons]
      rw [h.1, ih ps h.2 (by simpa using hle)]

theorem sufMatch_refl (l : List Char) : sufMatch l l = true :=
  leadMatch_refl l.reverse

theorem sufMatch_cons (q l : List Char) (c : Char) (h : sufMatch q l = true) :
    sufMatch q (c :: l) = true := by
  unfold sufMatch at h ⊢
  rw [List.reverse_cons]
  exact leadMatch_append_left _ _ _ h

theorem contains_of_leadMatch (p s : List Char) (h : leadMatch p s = true) :
    containsSub p s = true := by
  cases s with
  | nil =>
    cases p with
    | nil => rfl
    | cons a ps => exact absurd h (by simp [leadMatch])
  | cons c r => simp [containsSub, h]

theorem contains_append_right (p x y : List Char) (h : containsSub p y = true) :
    containsSub p (x ++ y) = true := by
  induction x with
  | nil => simpa using h
  | cons c x' ih =>
    rw [List.cons_append]
    simp [containsSub, ih]

theorem containsSub_append_false (p x y : List Char)
    (hx : containsSub p x = false) (hy : containsSub p y = false)
    (hb : ∀ k, k < p.length → 0 < k → sufMatch (List.take k p) x = false) :
    containsSub p (x ++ y) = false := by
  induction x with
  | nil => simpa using hy
  | cons c x' ih =>
    have hx' : leadMatch p (c :: x') = false ∧ containsSub p x' = false := by
      simpa [containsSub] using hx
    have hb' : ∀ k, k < p.length → 0 < k → sufMatch (List.take k p) x' = false := by
      intro k hk2 hk1
      cases hsm : sufMatch (List.take k p) x' with
      | false => rfl
      | true =>
        have hcc := sufMatch_cons (List.take k p) x' c hsm
        rw [hb k hk2 hk1] at hcc
        simp at hcc
    have h2 : containsSub p (x' ++ y) = false := ih hx'.2 hb'
    have h1 : leadMatch p (c :: (x' ++ y)) = false := by
      cases hlm : leadMatch p (c :: (x' ++ y)) with
      | false => rfl
      | true =>
        have hx'' : leadMatch p ((c :: x') ++ y) = true := by
          rw [List.cons_append]; exact hlm
        rcases le_or_lt p.length (x'.length + 1) with hge | hlt
        · have hm : leadMatch p (c :: x') = true :=
            leadMatch_of_le p (c :: x') y hx'' (by simpa using hge)
          rw [hx'.1] at hm
          simp at hm
        · have htake : List.take (c :: x').length p = c :: x' :=
            leadMatch_take_eq p (c :: x') y hx'' (by simpa using Nat.le_of_lt hlt)
          have hbk := hb (c :: x').length (by simpa using hlt)
            (by rw [List.length_cons]; exact Nat.succ_pos _)
          rw [htake, sufMatch_refl] at hbk
          simp at hbk
    show containsSub p ((c :: x') ++ y) = false
    rw [List.cons_append]
    simp [containsSub, h1, h2]

theorem removeFirstCI_of_not_contains (p l : List Char)
    (h : containsSub p (upperL l) = false) : removeFirstCI p l = l := by
  induction l with
  | nil => rfl
  | cons c r ih =>
    have hcons : upperL (c :: r) = Char.toUpper c :: upperL r := rfl
    rw [hcons] at h
    have h' : leadMatch p (Char.toUpper c :: upperL r) = false ∧
        containsSub p (upperL r) = false := by
      simpa [containsSub] using h
    simp only [removeFirstCI]
    rw [hcons, if_neg (by simp [h'.1]), ih h'.2]

theorem removeFirstCI_head (p l : List Char) (h : leadMatch p (upperL l) = true) :
    removeFirstCI p l = List.drop p.length l := by
  cases l with
  | nil => simp [removeFirstCI]
  | cons c r =>
    simp only [removeFirstCI]
    rw [if_pos h]

theorem removeFirstCI_at (p pre rest : List Char) (hp : upperL p = p)
    (h : ∀ k, k < pre.length → leadMatch p (upperL (List.drop k (pre ++ (p ++ rest)))) = false) :
    removeFirstCI p (pre ++ (p ++ rest)) = pre ++ rest := by
  induction pre with
  | nil =>
    simp only [List.nil_append]
    rw [removeFirstCI_head]
    · exact List.drop_left p rest
    · rw [upperL_append, hp]
      exact leadMatch_self_append p (upperL rest)
  | cons c pre' ih =>
    have h0 := h 0 (by simp)
    simp only [List.drop_zero] at h0
    rw [List.cons_append] at h0
    rw [List.cons_append]
    simp only [removeFirstCI]
    rw [if_neg (by simp [h0]), ih (by
      intro k hk
      have hkk := h (k + 1) (by simpa using Nat.succ_lt_succ hk)
      rw [List.cons_append, List.drop_succ_cons] at hkk
      exact hkk)]
    exact (List.cons_append _ _ _).symm

theorem trimL_cons_ws (c : Char) (l : List Char) (h : wsChar c = true) :
    trimL (c :: l) = trimL l := by
  unfold trimL
  rw [List.dropWhile_cons, if_pos h]

theorem trimL_eq_nil_iff (l : List Char) : trimL l = [] ↔ ∀ c ∈ l, wsChar c = true := by
  constructor
  · intro h c hc
    cases hw : wsChar c with
    | true => rfl
    | false =>
      exfalso
      have hmem : c ∈ l.takeWhile wsChar ∨ c ∈ l.dropWhile wsChar := by
        have hc' := hc
        rw [← List.takeWhile_append_dropWhile wsChar l] at hc'
        exact List.mem_append.mp hc'
      rcases hmem with hm | hm
      · have := List.mem_takeWhile_imp hm
        rw [hw] at this
        simp at this
      · unfold trimL at h
        rw [List.reverse_eq_nil_iff, List.dropWhile_eq_nil_iff] at h
        have := h c (by rw [List.mem_reverse]; exact hm)
        rw [hw] at this
        simp at this
  · intro h
    unfold trimL
    have h1 : l.dropWhile wsChar = [] := List.dropWhile_eq_nil_iff.mpr (fun c hc => h c hc)
    rw [h1]
    rfl

theorem trimL_ne_nil_of_mem (l : List Char) (c : Char) (hc : c ∈ l)
    (hw : wsChar c = false) : trimL l ≠ [] := by
  intro h
  have := (trimL_eq_nil_iff l).mp h c hc
  rw [hw] at this
  simp at this

theorem splitChar_ne_nil (sep : Char) (l : List Char) : splitChar sep l ≠ [] := by
  induction l with
  | nil => simp [splitChar]
  | cons c r ih =>
    cases hsp : splitChar sep r with
    | nil => exact absurd hsp ih
    | cons a as =>
      cases hc : c == sep <;> simp [splitChar, hsp, hc]

theorem splitChar_no_sep (sep : Char) (x : List Char) (h : sep ∉ x) :
    splitChar sep x = [x] := by
  induction x with
  | nil => rfl
  | cons c r ih =>
    have hc : (c == sep) = false := by
      simp only [beq_eq_false_iff_ne, ne_eq]
      intro e
      exact h (by rw [e]; exact List.mem_cons_self _ _)
    have hr : sep ∉ r := fun hm => h (List.mem_cons_of_mem _ hm)
    simp [splitChar, ih hr, hc]

theorem splitChar_append_sep (sep : Char) (x t : List Char) (h : sep ∉ x) :
    splitChar sep (x ++ sep :: t) = x :: splitChar sep t := by
  induction x with
  | nil =>
    simp only [List.nil_append]
    cases hsp : splitChar sep t with
    | nil => exact absurd hsp (splitChar_ne_nil sep t)
    | cons a as => simp [splitChar, hsp]
  | cons c x' ih =>
    have hc : (c == sep) = false := by
      simp only [beq_eq_false_iff_ne, ne_eq]
      intro e
      exact h (by rw [e]; exact List.mem_cons_self _ _)
    have hx' : sep ∉ x' := fun hm => h (List.mem_cons_of_mem _ hm)
    rw [List.cons_append]
    simp [splitChar, ih hx', hc]

theorem splitChar_joinChar (sep : Char) (ls : List (List Char)) (hne : ls ≠ [])
    (h : ∀ l ∈ ls, sep ∉ l) : splitChar sep (joinChar sep ls) = ls := by
  induction ls with
  | nil => exact absurd rfl hne
  | cons x rest ih =>
    cases rest with
    | nil =>
      rw [show joinChar sep [x] = x from rfl]
      exact splitChar_no_sep sep x (h x (List.mem_cons_self _ _))
    | cons y rest' =>
      rw [show joinChar sep (x :: y :: rest') = x ++ sep :: joinChar sep (y :: rest') from rfl]
      rw [splitChar_append_sep sep x _ (h x (List.mem_cons_self _ _))]
      rw [ih (by simp) (fun l hl => h l (List.mem_cons_of_mem _ hl))]

theorem scanLines_const (la lb lc va vb vc : List Char)
    (ha : ∀ acc, lineUpd acc la = (va, acc.2.1, acc.2.2))
    (hb : ∀ acc, lineUpd acc lb = (acc.1, vb, acc.2.2))
    (hc : ∀ acc, lineUpd acc lc = (acc.1, acc.2.1, vc))
    (dab : la ≠ lb) (dac : la ≠ lc) (dbc : lb ≠ lc) :
    ∀ (ls : List (List Char)) (acc : List Char × List Char × List Char),
      (∀ l ∈ ls, l = la ∨ l = lb ∨ l = lc) →
      scanLines ls acc =
        (if la ∈ ls then va else acc.1,
         if lb ∈ ls then vb else acc.2.1,
         if lc ∈ ls then vc else acc.2.2) := by
  intro ls
  induction ls with
  | nil =>
    intro acc _
    simp [scanLines]
  | cons l rest ih =>
    intro acc hshape
    have hrest : ∀ l' ∈ rest, l' = la ∨ l' = lb ∨ l' = lc :=
      fun l' h => hshape l' (List.mem_cons_of_mem _ h)
    have hstep : scanLines (l :: rest) acc = scanLines rest (lineUpd acc l) := rfl
    rcases hshape l (List.mem_cons_self _ _) with rfl | rfl | rfl
    · rw [hstep, ha, ih _ hrest]
      by_cases h1 : lb ∈ rest <;> by_cases h2 : lc ∈ rest <;>
        simp [List.mem_cons, h1, h2, Ne.symm dab, Ne.symm dac]
    · rw [hstep, hb, ih _ hrest]
      by_cases h1 : la ∈ rest <;> by_cases h2 : lc ∈ rest <;>
        simp [List.mem_cons, h1, h2, dab, Ne.symm dbc]
    · rw [hstep, hc, ih _ hrest]
      by_cases h1 : la ∈ rest <;> by_cases h2 : lb ∈ rest <;>
        simp [List.mem_cons, h1, h2, dac, dbc]

theorem parse_of_scan (ls : List String) (t p d : List Char)
    (hne : ls ≠ []) (hnl : ∀ l ∈ ls, '\n' ∉ l.data)
    (hscan : scanLines ((ls.map String.data).filter (fun l => !(trimL l).isEmpty))
      ([], [], []) = (t, p, d))
    (hcond : ¬(t = [] ∧ p = [] ∧ d = [])) :
    parseFeedbackResponse (joinLines ls) =
      ⟨(orDefault t defaultTop.data).asString,
       (orDefault p defaultPrac.data).asString,
       (orDefault d defaultDom.data).asString⟩ := by
  have hsplit : splitChar '\n' ((joinLines ls).data) = ls.map String.data := by
    rw [show (joinLines ls).data = joinChar '\n' (ls.map String.data) from rfl]
    apply splitChar_joinChar
    · simpa using hne
    · intro l hl
      obtain ⟨x, hx, rfl⟩ := List.mem_map.mp hl
      exact hnl x hx
  simp only [parseFeedbackResponse]
  rw [hsplit, hscan]
  have hcond' : ¬((t, p, d).1 = [] ∧ (t, p, d).2.1 = [] ∧ (t, p, d).2.2 = []) := hcond
  rw [if_neg hcond']

theorem lineTop_data (v : String) :
    (lineTop v).data = "TOP_STRENGTHS: ".data ++ v.data := rfl

theorem linePrac_data (v : String) :
    (linePrac v).data = "PRACTICAL EXPERIENCE: ".data ++ v.data := rfl

theorem lineDom_data (v : String) :
    (lineDom v).data = "DOMAIN_KNOWLEDGE: ".data ++ v.data := rfl

theorem lineTop_data' (v : String) : (lineTop v).data = lTS1 ++ (' ' :: v.data) := by
  rw [lineTop_data, show "TOP_STRENGTHS: ".data = lTS1 ++ [' '] from by decide,
    List.append_assoc]
  rfl

theorem linePrac_data' (v : String) : (linePrac v).data = lPE2 ++ (' ' :: v.data) := by
  rw [linePrac_data, show "PRACTICAL EXPERIENCE: ".data = lPE2 ++ [' '] from by decide,
    List.append_assoc]
  rfl

theorem lineDom_data' (v : String) : (lineDom v).data = lDK1 ++ (' ' :: v.data) := by
  rw [lineDom_data, show "DOMAIN_KNOWLEDGE: ".data = lDK1 ++ [' '] from by decide,
    List.append_assoc]
  rfl

theorem upper_lineTop (v : String) :
    upperL (lineTop v).data = lTS1 ++ (' ' :: upperL v.data) := by
  rw [lineTop_data, upperL_append,
    show upperL "TOP_STRENGTHS: ".data = lTS1 ++ [' '] from by decide, List.append_assoc]
  rfl

theorem upper_linePrac (v : String) :
    upperL (linePrac v).data = lPE2 ++ (' ' :: upperL v.data) := by
  rw [linePrac_data, upperL_append,
    show upperL "PRACTICAL EXPERIENCE: ".data = lPE2 ++ [' '] from by decide,
    List.append_assoc]
  rfl

theorem upper_lineDom (v : String) :
    upperL (lineDom v).data = lDK1 ++ (' ' :: upperL v.data) := by
  rw [lineDom_data, upperL_append,
    show upperL "DOMAIN_KNOWLEDGE: ".data = lDK1 ++ [' '] from by decide, List.append_assoc]
  rfl

theorem data_ne_of_head (s t : String) (a b : Char) (hs : s.data.head? = some a)
    (ht : t.data.head? = some b) (hab : a ≠ b) : s.data ≠ t.data := by
  intro h
  rw [h, ht] at hs
  exact hab (Option.some.inj hs).symm

theorem contains_line_false (p : List Char) (lit v : String)
    (hx : containsSub p (upperL lit.data) = false)
    (hb : ∀ k, k < p.length → 0 < k → sufMatch (List.take k p) (upperL lit.data) = false)
    (hy : containsSub p (upperL v.data) = false) :
    containsSub p (upperL (lit ++ v).data) = false := by
  rw [show (lit ++ v).data = lit.data ++ v.data from rfl, upperL_append]
  exact containsSub_append_false p _ _ hx hy hb

theorem lineUpd_top (v : String) (hT : trimL v.data = v.data) (hn : noLabels v) :
    ∀ acc, lineUpd acc (lineTop v).data = (v.data, acc.2.1, acc.2.2) := by
  intro acc
  have hup := upper_lineTop v
  have hlead : leadMatch lTS1 (upperL (lineTop v).data) = true := by
    rw [hup]
    exact leadMatch_self_append _ _
  have hcond : containsSub lTS1 (upperL (lineTop v).data) = true :=
    contains_of_leadMatch _ _ hlead
  have hrm1 : removeFirstCI lTS1 (lineTop v).data = ' ' :: v.data := by
    rw [removeFirstCI_head _ _ hlead, lineTop_data']
    exact List.drop_left lTS1 (' ' :: v.data)
  have hrm2 : removeFirstCI lTS2 (' ' :: v.data) = ' ' :: v.data := by
    apply removeFirstCI_of_not_contains
    rw [show upperL (' ' :: v.data) = ' ' :: upperL v.data from rfl]
    have h1 : leadMatch lTS2 (' ' :: upperL v.data) = false := rfl
    simp [containsSub, h1, hn.2.1]
  have htrim : trimL (' ' :: v.data) = v.data := by
    rw [trimL_cons_ws ' ' v.data (by decide), hT]
  simp [lineUpd, hcond, hrm1, hrm2, htrim]

theorem lineUpd_prac (v : String) (hT : trimL v.data = v.data) (hn : noLabels v) :
    ∀ acc, lineUpd acc (linePrac v).data = (acc.1, v.data, acc.2.2) := by
  intro acc
  obtain ⟨n1, n2, n3, n4, n5, n6⟩ := hn
  have hTS1 : containsSub lTS1 (upperL (linePrac v).data) = false :=
    contains_line_false lTS1 "PRACTICAL EXPERIENCE: " v (by decide) (by decide) n1
  have hTS2 : containsSub lTS2 (upperL (linePrac v).data) = false :=
    contains_line_false lTS2 "PRACTICAL EXPERIENCE: " v (by decide) (by decide) n2
  have hPE1 : containsSub lPE1 (upperL (linePrac v).data) = false :=
    contains_line_false lPE1 "PRACTICAL EXPERIENCE: " v (by decide) (by decide) n3
  have hup := upper_linePrac v
  have hlead : leadMatch lPE2 (upperL (linePrac v).data) = true := by
    rw [hup]
    exact leadMatch_self_append _ _
  have hPE2 : containsSub lPE2 (upperL (linePrac v).data) = true :=
    contains_of_leadMatch _ _ hlead
  have hrm1 : removeFirstCI lPE1 (linePrac v).data = (linePrac v).data :=
    removeFirstCI_of_not_contains _ _ hPE1
  have hrm2 : removeFirstCI lPE2 (linePrac v).data = ' ' :: v.data := by
    rw [removeFirstCI_head _ _ hlead, linePrac_data']
    exact List.drop_left lPE2 (' ' :: v.data)
  have htrim : trimL (' ' :: v.data) = v.data := by
    rw [trimL_cons_ws ' ' v.data (by decide), hT]
  simp [lineUpd, hTS1, hTS2, hPE1, hPE2, hrm1, hrm2, htrim]

theorem lineUpd_dom (v : String) (hT : trimL v.data = v.data) (hn : noLabels v) :
    ∀ acc, lineUpd acc (lineDom v).data = (acc.1, acc.2.1, v.data) := by
  intro acc
  obtain ⟨n1, n2, n3, n4, n5, n6⟩ := hn
  have hTS1 : containsSub lTS1 (upperL (lineDom v).data) = false :=
    contains_line_false lTS1 "DOMAIN_KNOWLEDGE: " v (by decide) (by decide) n1
  have hTS2 : containsSub lTS2 (upperL (lineDom v).data) = false :=
    contains_line_false lTS2 "DOMAIN_KNOWLEDGE: " v (by decide) (by decide) n2
  have hPE1 : containsSub lPE1 (upperL (lineDom v).data) = false :=
    contains_line_false lPE1 "DOMAIN_KNOWLEDGE: " v (by decide) (by decide) n3
  have hPE2 : containsSub lPE2 (upperL (lineDom v).data) = false :=
    contains_line_false lPE2 "DOMAIN_KNOWLEDGE: " v (by decide) (by decide) n4
  have hup := upper_lineDom v
  have hlead : leadMatch lDK1 (upperL (lineDom v).data) = true := by
    rw [hup]
    exact leadMatch_self_append _ _
  have hDK1 : containsSub lDK1 (upperL (lineDom v).data) = true :=
    contains_of_leadMatch _ _ hlead
  have hrm1 : removeFirstCI lDK1 (lineDom v).data = ' ' :: v.data := by
    rw [removeFirstCI_head _ _ hlead, lineDom_data']
    exact List.drop_left lDK1 (' ' :: v.data)
  have hrm2 : removeFirstCI lDK2 (' ' :: v.data) = ' ' :: v.data := by
    apply removeFirstCI_of_not_contains
    rw [show upperL (' ' :: v.data) = ' ' :: upperL v.data from rfl]
    have h1 : leadMatch lDK2 (' ' :: upperL v.data) = false := rfl
    simp [containsSub, h1, n6]
  have htrim : trimL (' ' :: v.data) = v.data := by
    rw [trimL_cons_ws ' ' v.data (by decide), hT]
  simp [lineUpd, hTS1, hTS2, hPE1, hPE2, hDK1, hrm1, hrm2, htrim]

theorem lineUpd_topEmpty :
    ∀ acc, lineUpd acc ("TOP_STRENGTHS:" : String).data = ([], acc.2.1, acc.2.2) := by
  intro acc
  have h1 : containsSub lTS1 (upperL ("TOP_STRENGTHS:" : String).data) = true := by decide
  have h2 : trimL (removeFirstCI lTS2 (removeFirstCI lTS1 ("TOP_STRENGTHS:" : String).data))
      = [] := by decide
  simp [lineUpd, h1, h2]

theorem line_no_newline (lit v : String) (hlit : '\n' ∉ lit.data) (h : '\n' ∉ v.data) :
    '\n' ∉ (lit ++ v).data := by
  rw [show (lit ++ v).data = lit.data ++ v.data from rfl]
  intro hm
  rcases List.mem_append.mp hm with h1 | h1
  · exact hlit h1
  · exact h h1

theorem line_not_blank (lit v : String) (c : Char) (hc : c ∈ lit.data)
    (hw : wsChar c = false) : trimL (lit ++ v).data ≠ [] := by
  apply trimL_ne_nil_of_mem _ c _ hw
  rw [show (lit ++ v).data = lit.data ++ v.data from rfl]
  exact List.mem_append.mpr (Or.inl hc)

theorem parse_three_lines_shape (lA lB lC : String) (vA vB vC : List Char) (ls : List String)
    (huA : ∀ acc, lineUpd acc lA.data = (vA, acc.2.1, acc.2.2))
    (huB : ∀ acc, lineUpd acc lB.data = (acc.1, vB, acc.2.2))
    (huC : ∀ acc, lineUpd acc lC.data = (acc.1, acc.2.1, vC))
    (dAB : lA.data ≠ lB.data) (dAC : lA.data ≠ lC.data) (dBC : lB.data ≠ lC.data)
    (hAnb : trimL lA.data ≠ []) (hBnb : trimL lB.data ≠ []) (hCnb : trimL lC.data ≠ [])
    (hAnl : '\n' ∉ lA.data) (hBnl : '\n' ∉ lB.data) (hCnl : '\n' ∉ lC.data)
    (hshape : ∀ l ∈ ls, (trimL l.data = [] ∧ '\n' ∉ l.data) ∨ l = lA ∨ l = lB ∨ l = lC)
    (hmA : lA ∈ ls) (hmB : lB ∈ ls) (hmC : lC ∈ ls)
    (hcond : ¬(vA = [] ∧ vB = [] ∧ vC = [])) :
    parseFeedbackResponse (joinLines ls) =
      ⟨(orDefault vA defaultTop.data).asString, (orDefault vB defaultPrac.data).asString,
       (orDefault vC defaultDom.data).asString⟩ := by
  have hne : ls ≠ [] := by
    intro h
    rw [h] at hmA
    exact absurd hmA (List.not_mem_nil _)
  have hnl : ∀ l ∈ ls, '\n' ∉ l.data := by
    intro l hl
    rcases hshape l hl with ⟨_, h⟩ | rfl | rfl | rfl
    · exact h
    · exact hAnl
    · exact hBnl
    · exact hCnl
  have hfshape : ∀ l ∈ (ls.map String.data).filter (fun l => !(trimL l).isEmpty),
      l = lA.data ∨ l = lB.data ∨ l = lC.data := by
    intro l hl
    obtain ⟨hmem, hpred⟩ := List.mem_filter.mp hl
    obtain ⟨x, hx, rfl⟩ := List.mem_map.mp hmem
    rcases hshape x hx with ⟨hblank, _⟩ | rfl | rfl | rfl
    · exact absurd hblank ((notBlank_iff x.data).mp hpred)
    · exact Or.inl rfl
    · exact Or.inr (Or.inl rfl)
    · exact Or.inr (Or.inr rfl)
  have hfA : lA.data ∈ (ls.map String.data).filter (fun l => !(trimL l).isEmpty) :=
    List.mem_filter.mpr ⟨List.mem_map.mpr ⟨lA, hmA, rfl⟩, (notBlank_iff lA.data).mpr hAnb⟩
  have hfB : lB.data ∈ (ls.map String.data).filter (fun l => !(trimL l).isEmpty) :=
    List.mem_filter.mpr ⟨List.mem_map.mpr ⟨lB, hmB, rfl⟩, (notBlank_iff lB.data).mpr hBnb⟩
  have hfC : lC.data ∈ (ls.map String.data).filter (fun l => !(trimL l).isEmpty) :=
    List.mem_filter.mpr ⟨List.mem_map.mpr ⟨lC, hmC, rfl⟩, (notBlank_iff lC.data).mpr hCnb⟩
  have hscan := scanLines_const lA.data lB.data lC.data vA vB vC huA huB huC dAB dAC dBC
    ((ls.map String.data).filter (fun l => !(trimL l).isEmpty)) ([], [], []) hfshape
  rw [if_pos hfA, if_pos hfB, if_pos hfC] at hscan
  exact parse_of_scan ls vA vB vC hne hnl hscan hcond

theorem parse_labeled_lines (A B C : String) (ls : List String)
    (hA : goodVal A) (hB : goodVal B) (hC : goodVal C)
    (hshape : ∀ l ∈ ls,
      (trimL l.data = [] ∧ '\n' ∉ l.data) ∨ l = lineTop A ∨ l = linePrac B ∨ l = lineDom C)
    (hmA : lineTop A ∈ ls) (hmB : linePrac B ∈ ls) (hmC : lineDom C ∈ ls) :
    parseFeedbackResponse (joinLines ls) = ⟨A, B, C⟩ := by
  obtain ⟨hAne, hAtrim, hAnl, hAlab⟩ := hA
  obtain ⟨hBne, hBtrim, hBnl, hBlab⟩ := hB
  obtain ⟨hCne, hCtrim, hCnl, hClab⟩ := hC
  have base := parse_three_lines_shape (lineTop A) (linePrac B) (lineDom C)
    A.data B.data C.data ls
    (lineUpd_top A hAtrim hAlab) (lineUpd_prac B hBtrim hBlab) (lineUpd_dom C hCtrim hClab)
    (data_ne_of_head _ _ 'T' 'P' rfl rfl (by decide))
    (data_ne_of_head _ _ 'T' 'D' rfl rfl (by decide))
    (data_ne_of_head _ _ 'P' 'D' rfl rfl (by decide))
    (line_not_blank "TOP_STRENGTHS: " A 'T' (by decide) (by decide))
    (line_not_blank "PRACTICAL EXPERIENCE: " B 'P' (by decide) (by decide))
    (line_not_blank "DOMAIN_KNOWLEDGE: " C 'D' (by decide) (by decide))
    (line_no_newline "TOP_STRENGTHS: " A (by decide) hAnl)
    (line_no_newline "PRACTICAL EXPERIENCE: " B (by decide) hBnl)
    (line_no_newline "DOMAIN_KNOWLEDGE: " C (by decide) hCnl)
    hshape hmA hmB hmC
    (fun h => String_ne_empty_data hAne h.1)
  rw [base]
  simp [orDefault, String_ne_empty_data hAne, String_ne_empty_data hBne,
    String_ne_empty_data hCne, asString_data]

theorem parse_last_wins (A₁ A₂ B C : String) (h1 : goodVal A₁) (h2 : goodVal A₂)
    (hB : goodVal B) (hC : goodVal C) :
    parseFeedbackResponse (joinLines [lineTop A₁, lineTop A₂, linePrac B, lineDom C])
      = ⟨A₂, B, C⟩ := by
  obtain ⟨h1ne, h1trim, h1nl, h1lab⟩ := h1
  obtain ⟨h2ne, h2trim, h2nl, h2lab⟩ := h2
  obtain ⟨hBne, hBtrim, hBnl, hBlab⟩ := hB
  obtain ⟨hCne, hCtrim, hCnl, hClab⟩ := hC
  have hnl : ∀ l ∈ [lineTop A₁, lineTop A₂, linePrac B, lineDom C], '\n' ∉ l.data := by
    intro l hl
    simp only [List.mem_cons, List.not_mem_nil, or_false] at hl
    rcases hl with rfl | rfl | rfl | rfl
    · exact line_no_newline "TOP_STRENGTHS: " A₁ (by decide) h1nl
    · exact line_no_newline "TOP_STRENGTHS: " A₂ (by decide) h2nl
    · exact line_no_newline "PRACTICAL EXPERIENCE: " B (by decide) hBnl
    · exact line_no_newline "DOMAIN_KNOWLEDGE: " C (by decide) hCnl
  have p1 : (!(trimL (lineTop A₁).data).isEmpty) = true :=
    (notBlank_iff _).mpr (line_not_blank "TOP_STRENGTHS: " A₁ 'T' (by decide) (by decide))
  have p2 : (!(trimL (lineTop A₂).data).isEmpty) = true :=
    (notBlank_iff _).mpr (line_not_blank "TOP_STRENGTHS: " A₂ 'T' (by decide) (by decide))
  have p3 : (!(trimL (linePrac B).data).isEmpty) = true :=
    (notBlank_iff _).mpr (line_not_blank "PRACTICAL EXPERIENCE: " B 'P' (by decide) (by decide))
  have p4 : (!(trimL (lineDom C).data).isEmpty) = true :=
    (notBlank_iff _).mpr (line_not_blank "DOMAIN_KNOWLEDGE: " C 'D' (by decide) (by decide))
  have hfil : ([lineTop A₁, lineTop A₂, linePrac B, lineDom C].map String.data).filter
      (fun l => !(trimL l).isEmpty)
      = [(lineTop A₁).data, (lineTop A₂).data, (linePrac B).data, (lineDom C).data] := by
    simp only [List.map_cons, List.map_nil]
    simp [List.filter_cons, p1, p2, p3, p4]
  have hstep : scanLines [(lineTop A₁).data, (lineTop A₂).data, (linePrac B).data,
      (lineDom C).data] ([], [], []) = (A₂.data, B.data, C.data) := by
    simp only [scanLines, List.foldl_cons, List.foldl_nil]
    rw [lineUpd_top A₁ h1trim h1lab, lineUpd_top A₂ h2trim h2lab,
      lineUpd_prac B hBtrim hBlab, lineUpd_dom C hCtrim hClab]
  have hscan' : scanLines (([lineTop A₁, lineTop A₂, linePrac B, lineDom C].map
      String.data).filter (fun l => !(trimL l).isEmpty)) ([], [], [])
      = (A₂.data, B.data, C.data) := by
    rw [hfil]
    exact hstep
  have base := parse_of_scan [lineTop A₁, lineTop A₂, linePrac B, lineDom C]
    A₂.data B.data C.data (by simp) hnl hscan' (fun h => String_ne_empty_data h2ne h.1)
  rw [base]
  simp [orDefault, String_ne_empty_data h2ne, String_ne_empty_data hBne,
    String_ne_empty_data hCne, asString_data]

theorem checkSkills_ok (skills : List Skill)
    (h : ∀ sk ∈ skills, sk.name ≠ "" ∧ 1 ≤ sk.rating ∧ sk.rating ≤ 5) :
    checkSkills skills = ⟨true, none⟩ := by
  induction skills with
  | nil => rfl
  | cons sk rest ih =>
    obtain ⟨hname, hlo, hhi⟩ := h sk (List.mem_cons_self _ _)
    have hrest := ih (fun x hx => h x (List.mem_cons_of_mem _ hx))
    unfold checkSkills
    rw [if_neg hname, if_neg, hrest]
    rintro (h0 | hlt | hgt)
    · rw [h0] at hlo
      norm_num at hlo
    · linarith
    · linarith

/-- C1: for every input string, each of the three fields of the result of
`parseFeedbackResponse` is a non-empty string — the `orDefault` fallback on
lines 72-76 makes an empty or absent field impossible. -/
theorem C1_parser_fields_nonempty (s : String) :
    (parseFeedbackResponse s).topStrengths ≠ "" ∧
    (parseFeedbackResponse s).practicalExperience ≠ "" ∧
    (parseFeedbackResponse s).domainKnowledge ≠ "" := by
  unfold parseFeedbackResponse
  refine ⟨?_, ?_, ?_⟩ <;>
    · apply asString_ne_empty
      apply orDefault_ne_nil
      decide

/-- C4: the validator accepts every input that is valid in the sense of the
specification, and rejects any empty skills list with the exact message
`Invalid input. Please provide an array of skills.` before looking at
anything else (the comment is arbitrary there, valid or not). -/
theorem C4_validator_accepts_valid_and_rejects_empty_first :
    (∀ (skills : List Skill) (comment : String), specValidInput skills comment →
      validateInput skills comment = ⟨true, none⟩) ∧
    (∀ comment : String,
      validateInput [] comment =
        ⟨false, some "Invalid input. Please provide an array of skills."⟩) := by
  constructor
  · intro skills comment ⟨hne, hcomment, hskills⟩
    unfold validateInput
    rw [if_neg, if_neg hcomment, checkSkills_ok skills hskills]
    simpa using hne
  · intro comment
    rfl

theorem C4_witness :
    specValidInput [⟨"Go", 5⟩, ⟨"SQL", 2⟩] "solid" ∧
    validateInput [⟨"Go", 5⟩, ⟨"SQL", 2⟩] "solid" = ⟨true, none⟩ ∧
    validateInput [] " " =
      ⟨false, some "Invalid input. Please provide an array of skills."⟩ :=
  ⟨by decide,
   C4_validator_accepts_valid_and_rejects_empty_first.1 _ _ (by decide),
   C4_validator_accepts_valid_and_rejects_empty_first.2 " "⟩

/-- C3: whenever validation fails, `SkillsFeedback` returns the structured
error built from the validator message, with no feedback object, and the
result does not depend on the upstream collaborator at all (the completion
call is never consulted, no stage after the validator matters). -/
theorem C3_validation_failure_short_circuits
    (skills : List Skill) (comment : String) (upstream : String → Option String)
    (h : (validateInput skills comment).isValid = false) :
    SkillsFeedback skills comment upstream =
      { success := false, feedback := none,
        error := (validateInput skills comment).message } := by
  unfold SkillsFeedback
  simp [h]

theorem C3_witness :
    (validateInput [] "fine").isValid = false ∧
    SkillsFeedback [] "fine" (fun _ => some "TOP_STRENGTHS: X") =
      { success := false, feedback := none,
        error := some "Invalid input. Please provide an array of skills." } :=
  ⟨by decide,
   (C3_validation_failure_short_circuits [] "fine"
      (fun _ => some "TOP_STRENGTHS: X") (by decide)).trans (by decide)⟩

/-- C7: when the completion call fails (non-ok status or throw), the result is
`success:false` with error `Failed to generate feedback` and a feedback
object whose three fields all equal the same fallback sentence; the function
returns normally (the embedding is total), and no mix of derived and fallback
text can occur on this path. -/
theorem C7_upstream_failure_uniform_fallback
    (skills : List Skill) (comment : String) (upstream : String → Option String)
    (hv : (validateInput skills comment).isValid = true)
    (hu : upstream (buildPrompt skills comment) = none) :
    SkillsFeedback skills comment upstream =
      { success := false,
        feedback := some [("Top_strength", unableMsg),
                          ("practical_Experience", unableMsg),
                          ("DOmain_Knowledge", unableMsg)],
        error := some "Failed to generate feedback" } := by
  unfold SkillsFeedback
  simp [hv, hu]

theorem C7_witness :
    (validateInput [⟨"Go", 5⟩] "solid").isValid = true ∧
    SkillsFeedback [⟨"Go", 5⟩] "solid" (fun _ => none) =
      { success := false,
        feedback := some [("Top_strength", unableMsg),
                          ("practical_Experience", unableMsg),
                          ("DOmain_Knowledge", unableMsg)],
        error := some "Failed to generate feedback" } :=
  ⟨by decide,
   C7_upstream_failure_uniform_fallback [⟨"Go", 5⟩] "solid" (fun _ => none)
     (by decide) rfl⟩

/-- C2 fails on the code: on the success path the feedback object's keys are
`Top_strength`, `practical_Experience`, `DOmain_Knowledge`, not the
specification's `topStrengths`, `practicalExperience`, `domainKnowledge`.
This counterexample exhibits a validated request and a successful completion
whose response has `success:true` but differently named fields. -/
theorem C2_counterexample :
    (SkillsFeedback [⟨"Go", 5⟩] "solid"
        (fun _ => some "TOP_STRENGTHS: A\nPRACTICAL EXPERIENCE: B\nDOMAIN_KNOWLEDGE: C")).success
      = true ∧
    ¬ ((SkillsFeedback [⟨"Go", 5⟩] "solid"
        (fun _ => some "TOP_STRENGTHS: A\nPRACTICAL EXPERIENCE: B\nDOMAIN_KNOWLEDGE: C")).feedback.getD []).map
        Prod.fst = ["topStrengths", "practicalExperience", "domainKnowledge"] := by
  constructor
  · rfl
  · decide

/-- C2 (amended): for every request that passes validation and whose
completion call succeeds, the response has `success:true` and a feedback
object with exactly the keys `Top_strength`, `practical_Experience`,
`DOmain_Knowledge`, in this order, whose values are the parser's
`topStrengths`, `practicalExperience` and `domainKnowledge` fields. -/
theorem C2_success_shape
    (skills : List Skill) (comment : String) (upstream : String → Option String)
    (text : String)
    (hv : (validateInput skills comment).isValid = true)
    (hu : upstream (buildPrompt skills comment) = some text) :
    SkillsFeedback skills comment upstream =
      { success := true,
        feedback := some [("Top_strength", (parseFeedbackResponse text).topStrengths),
                          ("practical_Experience", (parseFeedbackResponse text).practicalExperience),
                          ("DOmain_Knowledge", (parseFeedbackResponse text).domainKnowledge)],
        error := none } := by
  unfold SkillsFeedback
  simp [hv, hu]

theorem C2_success_shape_witness :
    (validateInput [⟨"Go", 5⟩] "solid").isValid = true ∧
    SkillsFeedback [⟨"Go", 5⟩] "solid" (fun _ => some "plain reply") =
      { success := true,
        feedback := some [("Top_strength", (parseFeedbackResponse "plain reply").topStrengths),
                          ("practical_Experience", (parseFeedbackResponse "plain reply").practicalExperience),
                          ("DOmain_Knowledge", (parseFeedbackResponse "plain reply").domainKnowledge)],
        error := none } :=
  ⟨by decide,
   C2_success_shape [⟨"Go", 5⟩] "solid" (fun _ => some "plain reply") "plain reply"
     (by decide) rfl⟩

/-- C9: the prompt builder is deterministic — two runs on the identical
skills sequence and overall comment produce the identical prompt string.  The
embedding makes `buildPrompt` a pure function of exactly these two inputs (the
source reads nothing else: no clock, no randomness, no shared state). -/
theorem C9_prompt_deterministic
    (skills₁ skills₂ : List Skill) (comment₁ comment₂ : String)
    (hs : skills₁ = skills₂) (hc : comment₁ = comment₂) :
    buildPrompt skills₁ comment₁ = buildPrompt skills₂ comment₂ := by
  rw [hs, hc]

theorem C9_witness :
    ([⟨"Go", 5⟩, ⟨"SQL", 2⟩] : List Skill) = [⟨"Go", 5⟩, ⟨"SQL", 2⟩] ∧
    ("solid" : String) = "solid" ∧
    buildPrompt [⟨"Go", 5⟩, ⟨"SQL", 2⟩] "solid" = buildPrompt [⟨"Go", 5⟩, ⟨"SQL", 2⟩] "solid" :=
  ⟨rfl, rfl, C9_prompt_deterministic _ _ _ _ rfl rfl⟩

/-- C5: for any list of lines each of which is blank or one of the three
labelled lines `TOP_STRENGTHS: A`, `PRACTICAL EXPERIENCE: B`,
`DOMAIN_KNOWLEDGE: C` (any order, any number of interspersed blank lines,
each label line present, the section texts well-behaved), the parser yields
exactly `{A, B, C}`; and when the same label occurs on several lines, the
value of the last such line wins. -/
theorem C5_any_order_and_last_wins :
    (∀ (A B C : String) (ls : List String), goodVal A → goodVal B → goodVal C →
      (∀ l ∈ ls, (trimL l.data = [] ∧ '\n' ∉ l.data) ∨
        l = lineTop A ∨ l = linePrac B ∨ l = lineDom C) →
      lineTop A ∈ ls → linePrac B ∈ ls → lineDom C ∈ ls →
      parseFeedbackResponse (joinLines ls) = ⟨A, B, C⟩) ∧
    (∀ A₁ A₂ B C : String, goodVal A₁ → goodVal A₂ → goodVal B → goodVal C →
      parseFeedbackResponse (joinLines [lineTop A₁, lineTop A₂, linePrac B, lineDom C])
        = ⟨A₂, B, C⟩) :=
  ⟨fun A B C ls hA hB hC hshape hmA hmB hmC =>
      parse_labeled_lines A B C ls hA hB hC hshape hmA hmB hmC,
   fun A₁ A₂ B C h1 h2 hB hC => parse_last_wins A₁ A₂ B C h1 h2 hB hC⟩

theorem C5_witness :
    goodVal "A" ∧ goodVal "B" ∧ goodVal "C" ∧
    parseFeedbackResponse (joinLines [lineDom "C", "", lineTop "A", "   ", linePrac "B"])
      = ⟨"A", "B", "C"⟩ ∧
    parseFeedbackResponse (joinLines [lineTop "first", lineTop "second", linePrac "B", lineDom "C"])
      = ⟨"second", "B", "C"⟩ := by
  refine ⟨by decide, by decide, by decide, ?_, ?_⟩
  · exact C5_any_order_and_last_wins.1 "A" "B" "C" _ (by decide) (by decide) (by decide)
      (by decide) (by decide) (by decide) (by decide)
  · exact C5_any_order_and_last_wins.2 "first" "second" "B" "C" (by decide) (by decide)
      (by decide) (by decide)

/-- C6: a label line with empty content after the colon (the line
`TOP_STRENGTHS:`) yields the canned default for that field only; the other
two fields still carry the values of their own label lines, unaffected by
that line. -/
theorem C6_empty_capture_defaults_that_field_only (B C : String) (ls : List String)
    (hB : goodVal B) (hC : goodVal C)
    (hshape : ∀ l ∈ ls, (trimL l.data = [] ∧ '\n' ∉ l.data) ∨
      l = "TOP_STRENGTHS:" ∨ l = linePrac B ∨ l = lineDom C)
    (hmA : "TOP_STRENGTHS:" ∈ ls) (hmB : linePrac B ∈ ls) (hmC : lineDom C ∈ ls) :
    parseFeedbackResponse (joinLines ls) = ⟨defaultTop, B, C⟩ := by
  obtain ⟨hBne, hBtrim, hBnl, hBlab⟩ := hB
  obtain ⟨hCne, hCtrim, hCnl, hClab⟩ := hC
  have base := parse_three_lines_shape "TOP_STRENGTHS:" (linePrac B) (lineDom C)
    [] B.data C.data ls
    lineUpd_topEmpty (lineUpd_prac B hBtrim hBlab) (lineUpd_dom C hCtrim hClab)
    (data_ne_of_head _ _ 'T' 'P' rfl rfl (by decide))
    (data_ne_of_head _ _ 'T' 'D' rfl rfl (by decide))
    (data_ne_of_head _ _ 'P' 'D' rfl rfl (by decide))
    (by decide)
    (line_not_blank "PRACTICAL EXPERIENCE: " B 'P' (by decide) (by decide))
    (line_not_blank "DOMAIN_KNOWLEDGE: " C 'D' (by decide) (by decide))
    (by decide)
    (line_no_newline "PRACTICAL EXPERIENCE: " B (by decide) hBnl)
    (line_no_newline "DOMAIN_KNOWLEDGE: " C (by decide) hCnl)
    hshape hmA hmB hmC
    (fun h => String_ne_empty_data hBne h.2.1)
  rw [base]
  simp [orDefault, String_ne_empty_data hBne, String_ne_empty_data hCne, asString_data]

theorem C6_witness :
    goodVal "B" ∧ goodVal "C" ∧
    parseFeedbackResponse (joinLines ["TOP_STRENGTHS:", linePrac "B", lineDom "C"])
      = ⟨defaultTop, "B", "C"⟩ := by
  refine ⟨by decide, by decide, ?_⟩
  exact C6_empty_capture_defaults_that_field_only "B" "C" _ (by decide) (by decide)
    (by decide) (by decide) (by decide) (by decide)

/-- C8: when the line scan leaves all three fields unset, the parser splits
the whole text at each leftmost match of `\d+\.`, `TOP`, `PRACTICAL` or
`DOMAIN` (case-insensitively), discards fragments that are blank after
trimming, and if at least three fragments remain assigns the first three,
trimmed, to `topStrengths`, `practicalExperience`, `domainKnowledge` in this
order. -/
theorem C8_fallback_assignment (s : String)
    (hscan : scanLines ((splitChar '\n' s.data).filter (fun l => !(trimL l).isEmpty))
      ([], [], []) = ([], [], []))
    (s0 s1 s2 : List Char) (rest : List (List Char))
    (hsec : (splitRe s.data).filter (fun sec => !(trimL sec).isEmpty) = s0 :: s1 :: s2 :: rest) :
    parseFeedbackResponse s = ⟨(trimL s0).asString, (trimL s1).asString, (trimL s2).asString⟩ := by
  have hm0 : s0 ∈ (splitRe s.data).filter (fun sec => !(trimL sec).isEmpty) := by
    rw [hsec]
    exact List.mem_cons_self _ _
  have hm1 : s1 ∈ (splitRe s.data).filter (fun sec => !(trimL sec).isEmpty) := by
    rw [hsec]
    exact List.mem_cons_of_mem _ (List.mem_cons_self _ _)
  have hm2 : s2 ∈ (splitRe s.data).filter (fun sec => !(trimL sec).isEmpty) := by
    rw [hsec]
    exact List.mem_cons_of_mem _ (List.mem_cons_of_mem _ (List.mem_cons_self _ _))
  have hs0 : trimL s0 ≠ [] := (notBlank_iff s0).mp ((List.mem_filter.mp hm0).2)
  have hs1 : trimL s1 ≠ [] := (notBlank_iff s1).mp ((List.mem_filter.mp hm1).2)
  have hs2 : trimL s2 ≠ [] := (notBlank_iff s2).mp ((List.mem_filter.mp hm2).2)
  simp only [parseFeedbackResponse]
  rw [hscan, if_pos ⟨rfl, rfl, rfl⟩]
  simp only [feedbackFallback]
  rw [hsec]
  simp [orDefault, hs0, hs1, hs2]

theorem C8_witness :
    scanLines ((splitChar '\n' ("1. alpha\n2. beta\n3. gamma" : String).data).filter
      (fun l => !(trimL l).isEmpty)) ([], [], []) = ([], [], []) ∧
    (splitRe ("1. alpha\n2. beta\n3. gamma" : String).data).filter
      (fun sec => !(trimL sec).isEmpty) = [" alpha\n".data, " beta\n".data, " gamma".data] ∧
    parseFeedbackResponse "1. alpha\n2. beta\n3. gamma" = ⟨"alpha", "beta", "gamma"⟩ := by
  refine ⟨by decide, by decide, ?_⟩
  have h := C8_fallback_assignment "1. alpha\n2. beta\n3. gamma" (by decide)
    " alpha\n".data " beta\n".data " gamma".data [] (by decide)
  exact h.trans (by decide)

/-- C10: in the line scan a label is recognized anywhere within a line, not
only at its start (here the first occurrence of `TOP_STRENGTHS:` begins at
the arbitrary positive position `pre.length`), and a line containing a second
recognized label (`PRACTICAL EXPERIENCE:`, hypothesis `hPE`) is still
assigned to exactly one category — the first matching one in the fixed order,
`topStrengths` — while the other two fields fall back to their defaults. -/
theorem C10_label_anywhere_first_branch_wins (pre rest : List Char)
    (hpre : pre ≠ [])
    (hfirst : ∀ k, k < pre.length →
      leadMatch lTS1 (upperL (List.drop k (pre ++ (lTS1 ++ rest)))) = false)
    (hTS2 : containsSub lTS2 (upperL (pre ++ rest)) = false)
    (hPE : containsSub lPE2 (upperL (pre ++ (lTS1 ++ rest))) = true)
    (hnl : '\n' ∉ pre ++ (lTS1 ++ rest))
    (hval : trimL (pre ++ rest) ≠ []) :
    parseFeedbackResponse (pre ++ (lTS1 ++ rest)).asString =
      ⟨(trimL (pre ++ rest)).asString, defaultPrac, defaultDom⟩ := by
  have hsplit : splitChar '\n' ((pre ++ (lTS1 ++ rest)).asString).data
      = [pre ++ (lTS1 ++ rest)] := by
    rw [show ((pre ++ (lTS1 ++ rest)).asString).data = pre ++ (lTS1 ++ rest) from rfl]
    exact splitChar_no_sep _ _ hnl
  have hnb : (!(trimL (pre ++ (lTS1 ++ rest))).isEmpty) = true := by
    apply (notBlank_iff _).mpr
    apply trimL_ne_nil_of_mem _ 'T'
    · exact List.mem_append.mpr (Or.inr (List.mem_append.mpr (Or.inl (by decide))))
    · decide
  have hcontains : containsSub lTS1 (upperL (pre ++ (lTS1 ++ rest))) = true := by
    rw [upperL_append]
    apply contains_append_right
    rw [upperL_append, show upperL lTS1 = lTS1 from by decide]
    exact contains_of_leadMatch _ _ (leadMatch_self_append _ _)
  have hrm1 : removeFirstCI lTS1 (pre ++ (lTS1 ++ rest)) = pre ++ rest :=
    removeFirstCI_at lTS1 pre rest (by decide) hfirst
  have hrm2 : removeFirstCI lTS2 (pre ++ rest) = pre ++ rest :=
    removeFirstCI_of_not_contains _ _ hTS2
  have hupd : lineUpd ([], [], []) (pre ++ (lTS1 ++ rest)) = (trimL (pre ++ rest), [], []) := by
    simp [lineUpd, hcontains, hrm1, hrm2]
  have hfil : List.filter (fun l => !(trimL l).isEmpty) [pre ++ (lTS1 ++ rest)]
      = [pre ++ (lTS1 ++ rest)] := by
    simp [List.filter_cons, hnb]
  simp only [parseFeedbackResponse]
  rw [hsplit, hfil]
  have hsc : scanLines [pre ++ (lTS1 ++ rest)] ([], [], []) = (trimL (pre ++ rest), [], []) := by
    simp only [scanLines, List.foldl_cons, List.foldl_nil]
    exact hupd
  rw [hsc]
  have hcond' : ¬(((trimL (pre ++ rest), ([] : List Char), ([] : List Char)).1 = [] ∧
      (trimL (pre ++ rest), ([] : List Char), ([] : List Char)).2.1 = [] ∧
      (trimL (pre ++ rest), ([] : List Char), ([] : List Char)).2.2 = [])) :=
    fun h => hval h.1
  rw [if_neg hcond']
  simp [orDefault, hval, asString_data]

theorem C10_witness :
    ("Intro ".data ≠ ([] : List Char)) ∧
    (∀ k, k < "Intro ".data.length →
      leadMatch lTS1 (upperL (List.drop k
        ("Intro ".data ++ (lTS1 ++ " A PRACTICAL EXPERIENCE: B".data)))) = false) ∧
    containsSub lPE2 (upperL ("Intro ".data ++ (lTS1 ++ " A PRACTICAL EXPERIENCE: B".data)))
      = true ∧
    parseFeedbackResponse ("Intro ".data ++ (lTS1 ++ " A PRACTICAL EXPERIENCE: B".data)).asString
      = ⟨(trimL ("Intro ".data ++ " A PRACTICAL EXPERIENCE: B".data)).asString,
         defaultPrac, defaultDom⟩ := by
  refine ⟨by decide, by decide, by decide, ?_⟩
  exact C10_label_anywhere_first_branch_wins "Intro ".data " A PRACTICAL EXPERIENCE: B".data
    (by decide) (by decide) (by decide) (by decide) (by decide) (by decide)

theorem C1_witness :
    (parseFeedbackResponse "no labels here").topStrengths ≠ "" ∧
    (parseFeedbackResponse "no labels here").practicalExperience ≠ "" ∧
    (parseFeedbackResponse "no labels here").domainKnowledge ≠ "" :=
  C1_parser_fields_nonempty "no labels here"
